import Mathlib

/-!
Verification of the tabletd overlay-surface lease manager and event router.

Shallow embedding of the Rust sources under `src/`:

* `src/screen_overlay/backend_wayland/surface_state.rs` — `SurfaceState`,
  `SurfaceState::new`, `SurfaceState::add_surface`.
* `src/screen_overlay/backend_wayland/surface_info.rs` — `SurfaceInfo`,
  `RawSurfaceInfo` (Wayland protocol handles are modelled as opaque `Nat`
  tokens).
* `src/screen_overlay/backend_wayland/mod.rs` — the `OverlayCommand`
  handlers (`GetNextDisplay`, `ReleaseDisplay`), `WaylandOverlay::next_display`,
  the per-lease task answering `DisplayCommand::GetInfo`, the `WlOutput`
  event handler maintaining `OutputInfo`, and the layer-surface `Closed`
  handler.
* `src/overlay/backend_wayland/mod.rs` — the older standalone overlay
  client, embedded as a state machine over incoming Wayland events whose
  emitted protocol requests are recorded as an action trace.
* `src/event_model/event.rs` — the canonical tablet event model.

Rust `HashMap<u32, V>` values are embedded as association lists
`List (Nat × V)` with unique keys; `Vec<u32>` as `List Nat` where
`push` appends and `remove(0)` takes the head.
-/

set_option autoImplicit false

namespace Tabletd

/-! ## Association-list operations modelling `HashMap<u32, V>` -/

/-- Lookup in an association list, first matching key (`HashMap::get`). -/
def alookup {β : Type} : List (Nat × β) → Nat → Option β
  | [], _ => none
  | (k, v) :: rest, key => if k = key then some v else alookup rest key

/-- Insert/replace a binding (`HashMap::insert`). -/
def ainsert {β : Type} : List (Nat × β) → Nat → β → List (Nat × β)
  | [], key, val => [(key, val)]
  | (k, v) :: rest, key, val =>
    if k = key then (key, val) :: rest else (k, v) :: ainsert rest key val

/-- Remove a binding (`HashMap::remove`). -/
def aerase {β : Type} (m : List (Nat × β)) (key : Nat) : List (Nat × β) :=
  m.filter (fun p => p.1 != key)

theorem alookup_ainsert_self {β : Type} (m : List (Nat × β)) (k : Nat) (v : β) :
    alookup (ainsert m k v) k = some v := by
  induction m with
  | nil => simp [ainsert, alookup]
  | cons hd tl ih =>
    obtain ⟨k', v'⟩ := hd
    by_cases h : k' = k
    · simp [ainsert, alookup, h]
    · simp [ainsert, alookup, h, ih]

theorem alookup_ainsert_other {β : Type} (m : List (Nat × β)) (k k' : Nat) (v : β)
    (h : k' ≠ k) : alookup (ainsert m k v) k' = alookup m k' := by
  have hkk : ¬ (k = k') := fun e => h e.symm
  induction m with
  | nil => simp [ainsert, alookup, hkk]
  | cons hd tl ih =>
    obtain ⟨k₀, v₀⟩ := hd
    by_cases h₀ : k₀ = k
    · subst h₀
      simp [ainsert, alookup, hkk]
    · by_cases h₁ : k₀ = k'
      · simp [ainsert, alookup, h₀, h₁, h]
      · simp [ainsert, alookup, h₀, h₁, ih]

theorem alookup_aerase_self {β : Type} (m : List (Nat × β)) (k : Nat) :
    alookup (aerase m k) k = none := by
  induction m with
  | nil => simp [aerase, alookup]
  | cons hd tl ih =>
    obtain ⟨k', v'⟩ := hd
    by_cases h : k' = k
    · simpa [aerase, List.filter_cons, h] using ih
    · simpa [aerase, List.filter_cons, h, alookup] using ih

theorem alookup_aerase_other {β : Type} (m : List (Nat × β)) (k k' : Nat)
    (h : k' ≠ k) : alookup (aerase m k) k' = alookup m k' := by
  induction m with
  | nil => simp [aerase, alookup]
  | cons hd tl ih =>
    obtain ⟨k₀, v₀⟩ := hd
    by_cases h₀ : k₀ = k
    · subst h₀
      have hne : ¬ (k₀ = k') := fun e => h e.symm
      simpa [aerase, List.filter_cons, alookup, hne] using ih
    · by_cases h₁ : k₀ = k'
      · simp [aerase, List.filter_cons, alookup, h₀, h₁, h]
      · simpa [aerase, List.filter_cons, alookup, h₀, h₁] using ih

/-! ## Data model: `SurfaceInfo`, `RawSurfaceInfo`, `SurfaceState`
(from `surface_info.rs` and `surface_state.rs`) -/

/-- `SurfaceInfo` (surface_info.rs): public info for one display overlay.
`width`/`height` are Rust `i32`, `scale_factor` is `i32`, `name` is
`Option<String>`. -/
structure SurfaceInfo where
  id : Nat
  width : Int
  height : Int
  name : Option String
  scale_factor : Int
  deriving Repr, DecidableEq

/-- `RawSurfaceInfo` (surface_info.rs): holds the Wayland protocol objects
(`WlSurface`, `ZwlrLayerSurfaceV1`, `WlRegion`, optional `WlBuffer`);
each handle is modelled as an opaque `Nat` token. -/
structure RawSurfaceInfo where
  id : Nat
  surface : Nat
  layer_surface : Nat
  input_region : Nat
  buffer : Option Nat
  deriving Repr, DecidableEq

/-- `SurfaceState` (surface_state.rs): shared manager state. -/
structure SurfaceState where
  surfaces : List (Nat × SurfaceInfo)
  current_surface_id : Option Nat
  raw_surfaces : List (Nat × RawSurfaceInfo)
  available_surfaces : List Nat
  used_surfaces : List (Nat × Nat)
  deriving Repr, DecidableEq

/-- `SurfaceState::new`. -/
def SurfaceState.new : SurfaceState :=
  { surfaces := []
    current_surface_id := none
    raw_surfaces := []
    available_surfaces := []
    used_surfaces := [] }

/-- `SurfaceState::add_surface`: insert into both info maps and push the id
onto the back of `available_surfaces`. -/
def SurfaceState.add_surface (s : SurfaceState) (id : Nat)
    (surface_info : SurfaceInfo) (raw_info : RawSurfaceInfo) : SurfaceState :=
  { s with
    surfaces := ainsert s.surfaces id surface_info
    raw_surfaces := ainsert s.raw_surfaces id raw_info
    available_surfaces := s.available_surfaces ++ [id] }

/-- `used_surfaces.entry(next_id).or_insert(0) += 1` (mod.rs, GetNextDisplay). -/
def abump (m : List (Nat × Nat)) (key : Nat) : List (Nat × Nat) :=
  match alookup m key with
  | none => ainsert m key 1
  | some c => ainsert m key (c + 1)

/-- `OverlayCommand::GetNextDisplay` handler (mod.rs lines 247–273): if the
available pool is empty reply `None`; otherwise remove the head id, bump its
reference count, set `current_surface_id`, and reply with the matching
`SurfaceInfo` clone. -/
def getNextDisplay (s : SurfaceState) : SurfaceState × Option SurfaceInfo :=
  match s.available_surfaces with
  | [] => (s, none)
  | next_id :: rest =>
    ({ s with
        available_surfaces := rest
        used_surfaces := abump s.used_surfaces next_id
        current_surface_id := some next_id },
      alookup s.surfaces next_id)

/-- `OverlayCommand::ReleaseDisplay` handler (mod.rs lines 286–300): if the id
has a reference count, decrement it; at zero remove the entry and push the id
back onto the available pool. An absent id is ignored. In every reachable
state a stored count is at least 1, so the Nat subtraction agrees with the
Rust `u32` decrement. -/
def releaseDisplay (s : SurfaceState) (id : Nat) : SurfaceState :=
  match alookup s.used_surfaces id with
  | none => s
  | some count =>
    let count' := count - 1
    if count' = 0 then
      { s with
        used_surfaces := aerase s.used_surfaces id
        available_surfaces := s.available_surfaces ++ [id] }
    else
      { s with used_surfaces := ainsert s.used_surfaces id count' }

/-- Outcome of `WaylandOverlay::next_display` (mod.rs lines 315–330): the
reply `None` from the handler flows into `surface.ok_or_else(|| unreachable!())`,
which evaluates `unreachable!()` and panics. -/
inductive NextDisplayOutcome where
  | lease (info : SurfaceInfo)
  | panicked
  deriving Repr, DecidableEq

/-- `WaylandOverlay::next_display`: sends `GetNextDisplay` and unwraps the
optional reply through `ok_or_else(|| unreachable!())`. -/
def next_display (s : SurfaceState) : SurfaceState × NextDisplayOutcome :=
  match getNextDisplay s with
  | (s', none) => (s', NextDisplayOutcome.panicked)
  | (s', some info) => (s', NextDisplayOutcome.lease info)

/-! ## Operation sequences over the manager state -/

/-- One manager operation: `add_surface` (creation loop), `GetNextDisplay`
(Acquire) or `ReleaseDisplay` (Release). -/
inductive Op where
  | add (id : Nat) (info : SurfaceInfo) (raw : RawSurfaceInfo)
  | acquire
  | release (id : Nat)
  deriving Repr, DecidableEq

/-- Effect of one operation on the manager state. -/
def stepOp (s : SurfaceState) : Op → SurfaceState
  | Op.add id info raw => s.add_surface id info raw
  | Op.acquire => (getNextDisplay s).1
  | Op.release id => releaseDisplay s id

/-- Run a sequence of operations from a state. -/
def runOps (s : SurfaceState) (ops : List Op) : SurfaceState :=
  ops.foldl stepOp s

/-- States reachable from `SurfaceState::new` when every `add_surface` uses a
fresh id — as in `WaylandOverlay::new`, where the creation loop iterates once
over the keys of the `outputs` HashMap. -/
inductive ReachableFresh : SurfaceState → Prop where
  | init : ReachableFresh SurfaceState.new
  | add {s : SurfaceState} (id : Nat) (info : SurfaceInfo) (raw : RawSurfaceInfo) :
      ReachableFresh s → alookup s.surfaces id = none →
      ReachableFresh (s.add_surface id info raw)
  | acquire {s : SurfaceState} :
      ReachableFresh s → ReachableFresh (getNextDisplay s).1
  | release {s : SurfaceState} (id : Nat) :
      ReachableFresh s → ReachableFresh (releaseDisplay s id)

/-- Iterated `ReleaseDisplay` for one id (the caller sends the command `n`
times in sequence). -/
def iterRelease (s : SurfaceState) (id : Nat) : Nat → SurfaceState
  | 0 => s
  | n + 1 => iterRelease (releaseDisplay s id) id n

/-! ## Event model (src/event_model/event.rs) -/

/-- `Tilt` (event.rs): `i16` pair. -/
structure Tilt where
  x : Int
  y : Int
  deriving Repr, DecidableEq

/-- `PenLocation` (event.rs). -/
inductive PenLocation where
  | leaved
  | floating
  | pressed
  deriving Repr, DecidableEq

/-- `ToolType` (event.rs). -/
inductive ToolType where
  | pen
  | eraser
  deriving Repr, DecidableEq

/-- `PenState` (event.rs): `x`, `y`, `pressure` are `u32`. -/
structure PenState where
  x : Nat
  y : Nat
  pressure : Nat
  tilt : Tilt
  tool : ToolType
  location : PenLocation
  deriving Repr, DecidableEq

/-- `AuxButtonEvent` (event.rs): `button_id` is `u8`. -/
structure AuxButtonEvent where
  button_id : Nat
  pressed : Bool
  deriving Repr, DecidableEq

/-- `WheelDirection` (event.rs). -/
inductive WheelDirection where
  | clockwise
  | counterClockwise
  deriving Repr, DecidableEq

/-- `TabletEvent` (event.rs). -/
inductive TabletEvent where
  | penEvent (state : PenState)
  | auxButton (ev : AuxButtonEvent)
  | wheel (direction : WheelDirection)
  | unknown
  deriving Repr, DecidableEq

/-! ## Router

Modelled from the spec: the repository declares `pub mod event_router;`
(src/lib.rs line 17) but the router source file is not under `src/`.
Spec §4.2: per-device state `{Idle, SessionActive}`; a configurable gesture
table maps specific AuxButton/Wheel patterns to engage/disengage actions;
while `SessionActive` every event is tagged `Suppressed`; tags reflect the
state at the moment an event is processed (§8); the router tags but never
drops. `RoutedEvent` is `{source: DeviceId, payload: TabletEvent,
tag: Propagate|Suppressed}` (spec §3). -/

/-- Tag attached to each routed event (spec §3). -/
inductive Tag where
  | propagate
  | suppressed
  deriving Repr, DecidableEq

/-- Router state per device (spec §4.2). -/
inductive RouterState where
  | idle
  | sessionActive
  deriving Repr, DecidableEq

/-- Routed event (spec §3): source device, untouched payload, tag. -/
structure RoutedEvent where
  source : Nat
  payload : TabletEvent
  tag : Tag
  deriving Repr, DecidableEq

/-- Gesture-table action (spec §4.2). -/
inductive GestureAction where
  | engage
  | disengage
  deriving Repr, DecidableEq

/-- Gesture-table pattern over AuxButton/Wheel events (spec §4.2: the mapping
is data, not hardcoded logic). -/
inductive GesturePattern where
  | auxButton (button_id : Nat) (pressed : Bool)
  | wheel (direction : WheelDirection)
  deriving Repr, DecidableEq

/-- Does a pattern match an incoming event? -/
def patternMatches : GesturePattern → TabletEvent → Bool
  | GesturePattern.auxButton id pr, TabletEvent.auxButton ev =>
    ev.button_id == id && ev.pressed == pr
  | GesturePattern.wheel d, TabletEvent.wheel d' => d == d'
  | _, _ => false

/-- Gesture configuration: a table of pattern/action rows. -/
structure GestureConfig where
  table : List (GesturePattern × GestureAction)

/-- First matching row action, if any. -/
def gestureActionFor (cfg : GestureConfig) (ev : TabletEvent) : Option GestureAction :=
  (cfg.table.find? (fun row => patternMatches row.1 ev)).map Prod.snd

/-- Router transition `(state, event) -> (state', tag)` (spec §4.2, §8): the
tag reflects the state at the moment the event is processed; an engage
pattern moves to `SessionActive`, a disengage pattern back to `Idle`. -/
def routerStep (cfg : GestureConfig) (st : RouterState) (ev : TabletEvent) :
    RouterState × Tag :=
  let tag := match st with
    | RouterState.idle => Tag.propagate
    | RouterState.sessionActive => Tag.suppressed
  let st' := match gestureActionFor cfg ev with
    | some GestureAction.engage => RouterState.sessionActive
    | some GestureAction.disengage => RouterState.idle
    | none => st
  (st', tag)

/-- Route a finite input sequence for one device: one `RoutedEvent` out per
`TabletEvent` in. -/
def routeEvents (cfg : GestureConfig) (source : Nat) (st : RouterState) :
    List TabletEvent → RouterState × List RoutedEvent
  | [] => (st, [])
  | ev :: rest =>
    let out := routerStep cfg st ev
    let next := routeEvents cfg source out.1 rest
    (next.1, { source := source, payload := ev, tag := out.2 } :: next.2)

/-! ## Per-lease task and `DisplayInfo` (mod.rs lines 341–368, 47–51) -/

/-- `DisplayInfo` (mod.rs lines 23–29): `width`/`height` are `u32`,
`scale_factor` is `i32`. -/
structure DisplayInfo where
  width : Nat
  height : Nat
  scale_factor : Int
  name : String
  deriving Repr, DecidableEq

/-- Rust `as u32` cast of an `i32` value: two-complement (wrapping) semantics, i.e. wrap mod 2^32. -/
def i32AsU32 (x : Int) : Nat := (x % 4294967296).toNat

/-- The `DisplayInfo` the per-lease task builds on `DisplayCommand::GetInfo`
(mod.rs lines 348–355): width/height cast `as u32`, scale copied, name
defaulted to "未知" when the snapshot has none. -/
def displayInfoOfSnapshot (surf : SurfaceInfo) : DisplayInfo :=
  { width := i32AsU32 surf.width
    height := i32AsU32 surf.height
    scale_factor := surf.scale_factor
    name := surf.name.getD "未知" }

/-- `DisplayCommand` (mod.rs lines 31–34). -/
inductive DisplayCommand where
  | getDmaBuffer
  | getInfo
  deriving Repr, DecidableEq

/-- Reply of the per-lease task to one command (mod.rs lines 346–361): the
task closes over the `SurfaceInfo` clone `surf_info` taken at acquisition and
touches no shared state; `GetDmaBuffer` currently replies unit (modelled as
`none`). -/
def leaseTaskReply (surf : SurfaceInfo) : DisplayCommand → Option DisplayInfo
  | DisplayCommand.getInfo => some (displayInfoOfSnapshot surf)
  | DisplayCommand.getDmaBuffer => none

/-- Replies of the per-lease task to a command sequence. -/
def leaseTaskReplies (surf : SurfaceInfo) (cmds : List DisplayCommand) :
    List (Option DisplayInfo) :=
  cmds.map (leaseTaskReply surf)

/-! ## Output geometry tracking (mod.rs: `OutputInfo` and the `WlOutput`
dispatch, lines 498–541) -/

/-- `OutputInfo` (mod.rs lines 413–420) minus the protocol handle: geometry
reported so far for one `wl_output`. -/
structure OutputInfo where
  width : Option Int
  height : Option Int
  name : Option String
  scale_factor : Int
  has_valid_size : Bool
  deriving Repr, DecidableEq

/-- Initial `OutputInfo` inserted when the registry announces a `wl_output`
(mod.rs lines 452–467). -/
def OutputInfo.init : OutputInfo :=
  { width := none
    height := none
    name := none
    scale_factor := 1
    has_valid_size := false }

/-- A `wl_output` event as seen by the `Dispatch<WlOutput>` handler. -/
inductive OutputEvent where
  | mode (width height : Int)
  | scale (factor : Int)
  | name (n : String)
  | other
  deriving Repr, DecidableEq

/-- `Dispatch<WlOutput>` handler body (mod.rs lines 518–537): `Mode` stores
the reported size and latches `has_valid_size` when both dimensions are
strictly positive; `Scale` and `Name` update their fields; everything else
is ignored. -/
def applyOutputEvent (info : OutputInfo) : OutputEvent → OutputInfo
  | OutputEvent.mode w h =>
    let info' := { info with width := some w, height := some h }
    if w > 0 && h > 0 then { info' with has_valid_size := true } else info'
  | OutputEvent.scale f => { info with scale_factor := f }
  | OutputEvent.name n => { info with name := some n }
  | OutputEvent.other => info

/-- Overlay-creation decision in `WaylandOverlay::new` (mod.rs lines 121–156):
an output with `has_valid_size == false` is skipped; otherwise a layer surface
is created with `set_size(width.unwrap(), height.unwrap())`. When
`has_valid_size` holds, `width`/`height` are `Some` (the same `Mode` event set
them), so the `unwrap` never panics and is modelled by `getD 0`. -/
def overlayCreationSize (info : OutputInfo) : Option (Int × Int) :=
  if info.has_valid_size then some (info.width.getD 0, info.height.getD 0)
  else none

/-! ## Older standalone overlay client
(src/overlay/backend_wayland/mod.rs), embedded as a state machine over
incoming Wayland events; the protocol requests it issues are recorded as an
action trace. -/

/-- Protocol requests issued by the client (`State` dispatch arms). -/
inductive WlAction where
  | createSurface
  | setInputRegion
  | createPool
  | createBuffer
  | attachBuffer
  | commitSurface
  | ackConfigure (serial : Nat)
  | createLayerSurface
  deriving Repr, DecidableEq

/-- `State` (overlay/backend_wayland/mod.rs lines 37–48); protocol objects
are modelled by presence flags. The `configured` field is initialised `false`
and never assigned in the source. -/
structure OverlayClientState where
  running : Bool
  base_surface : Bool
  buffer : Bool
  input_region : Bool
  zwlr_layer_shell : Bool
  output : Bool
  layer_surface : Bool
  configured : Bool
  deriving Repr, DecidableEq

/-- Initial state built in `test_overlay` (lines 21–30). -/
def OverlayClientState.init : OverlayClientState :=
  { running := true
    base_surface := false
    buffer := false
    input_region := false
    zwlr_layer_shell := false
    output := false
    layer_surface := false
    configured := false }

/-- Incoming Wayland events dispatched to `State`: registry globals by
interface name, layer-surface configure/closed, output events. -/
inductive ClientEvent where
  | globalCompositor
  | globalShm
  | globalOutput
  | globalLayerShell
  | globalSeat
  | globalXdgWmBase
  | globalOther
  | surfaceConfigure (serial : Nat) (width height : Nat)
  | surfaceClosed
  | outputEvent
  deriving Repr, DecidableEq

/-- One dispatch step of the client (overlay/backend_wayland/mod.rs):
* `wl_compositor` global — create the base surface and input region;
* `wl_shm` global — create pool and buffer, then, if the base surface
  exists, attach the buffer and commit (lines 105–137) — no configure
  acknowledgement is awaited;
* `wl_output` global — bind the output;
* `zwlr_layer_shell_v1` global — if the base surface exists, create the
  layer surface;
* `Configure` — `ack_configure(serial)` then commit the base surface
  (lines 204–214);
* `Closed` and output events — ignored. -/
def dispatchClient (st : OverlayClientState) :
    ClientEvent → OverlayClientState × List WlAction
  | ClientEvent.globalCompositor =>
    ({ st with base_surface := true, input_region := true },
      [WlAction.createSurface, WlAction.setInputRegion])
  | ClientEvent.globalShm =>
    if st.base_surface then
      ({ st with buffer := true },
        [WlAction.createPool, WlAction.createBuffer, WlAction.attachBuffer,
          WlAction.commitSurface])
    else
      ({ st with buffer := true }, [WlAction.createPool, WlAction.createBuffer])
  | ClientEvent.globalOutput => ({ st with output := true }, [])
  | ClientEvent.globalLayerShell =>
    if st.base_surface then
      ({ st with layer_surface := true }, [WlAction.createLayerSurface])
    else
      (st, [])
  | ClientEvent.globalSeat => (st, [])
  | ClientEvent.globalXdgWmBase => (st, [])
  | ClientEvent.globalOther => (st, [])
  | ClientEvent.surfaceConfigure serial _ _ =>
    (st, WlAction.ackConfigure serial ::
      (if st.base_surface then [WlAction.commitSurface] else []))
  | ClientEvent.surfaceClosed => (st, [])
  | ClientEvent.outputEvent => (st, [])

/-- Run the client over an event trace, accumulating the emitted actions in
order. -/
def runClient (st : OverlayClientState) :
    List ClientEvent → OverlayClientState × List WlAction
  | [] => (st, [])
  | ev :: rest =>
    let out := dispatchClient st ev
    let next := runClient out.1 rest
    (next.1, out.2 ++ next.2)

/-- Does every `attachBuffer` in the trace come after some `ackConfigure`?
`ackSeen` records whether an acknowledgement has already occurred. -/
def attachesAfterAck : List WlAction → Bool → Bool
  | [], _ => true
  | WlAction.ackConfigure _ :: rest, _ => attachesAfterAck rest true
  | WlAction.attachBuffer :: rest, ackSeen => ackSeen && attachesAfterAck rest ackSeen
  | _ :: rest, ackSeen => attachesAfterAck rest ackSeen

/-! ## Layer-surface `Closed` handler of the lease manager backend
(screen_overlay/backend_wayland/mod.rs lines 608–630) -/

/-- The slice of `WaylandEventState` the `Closed` arm reads and writes:
`surfaces` (the raw per-output map of the event loop) and `running`. -/
structure WaylandEventStateSlice where
  surfaces : List (Nat × RawSurfaceInfo)
  running : Bool
  deriving Repr, DecidableEq

/-- Find the output id whose raw surface wraps the given layer-surface
handle (the linear scan in the handler, lines 612–618). -/
def findSurfaceByLayer (m : List (Nat × RawSurfaceInfo)) (ls : Nat) : Option Nat :=
  (m.find? (fun p => p.2.layer_surface == ls)).map Prod.fst

/-- The `Closed` arm: remove the matching id from the raw surface map of the
event loop and stop the loop when that map becomes empty. The shared
manager state (`SurfaceState` behind the mutex) is not touched by this arm:
it is returned unchanged. -/
def closedEvent (w : WaylandEventStateSlice) (mgr : SurfaceState) (ls : Nat) :
    WaylandEventStateSlice × SurfaceState :=
  let surfaces' :=
    match findSurfaceByLayer w.surfaces ls with
    | some id => aerase w.surfaces id
    | none => w.surfaces
  ({ surfaces := surfaces'
     running := if surfaces'.isEmpty then false else w.running },
    mgr)

/-! ## Test fixtures -/

/-- Concrete `SurfaceInfo` for display `id` (fixture for witnesses). -/
def mkInfo (id : Nat) : SurfaceInfo :=
  { id := id, width := 1920, height := 1080, name := none, scale_factor := 1 }

/-- Concrete `RawSurfaceInfo` for display `id` (fixture for witnesses). -/
def mkRaw (id : Nat) : RawSurfaceInfo :=
  { id := id, surface := id * 10 + 1, layer_surface := id * 10 + 2,
    input_region := id * 10 + 3, buffer := none }

/-- Manager state holding one enumerated display, id 1, still available. -/
def mgrOne : SurfaceState :=
  SurfaceState.new.add_surface 1 (mkInfo 1) (mkRaw 1)

/-- Manager state holding two enumerated displays, ids 1 and 2, both
available in enumeration order. -/
def mgrTwo : SurfaceState :=
  (SurfaceState.new.add_surface 1 (mkInfo 1) (mkRaw 1)).add_surface 2 (mkInfo 2) (mkRaw 2)

/-- Manager state in which display 7 carries reference count 2 (one Acquire
plus one share increment) and is out of the available pool. -/
def leasedTwice : SurfaceState :=
  { surfaces := [(7, mkInfo 7)]
    current_surface_id := some 7
    raw_surfaces := [(7, mkRaw 7)]
    available_surfaces := []
    used_surfaces := [(7, 2)] }

/-! ## Helper lemmas about the manager operations -/

theorem alookup_abump_self (m : List (Nat × Nat)) (k : Nat) :
    alookup (abump m k) k = some ((alookup m k).getD 0 + 1) := by
  unfold abump
  cases h : alookup m k with
  | none => simp [alookup_ainsert_self]
  | some c => simp [alookup_ainsert_self]

theorem alookup_abump_other (m : List (Nat × Nat)) (k k' : Nat) (h : k' ≠ k) :
    alookup (abump m k) k' = alookup m k' := by
  unfold abump
  cases alookup m k with
  | none => exact alookup_ainsert_other m k k' 1 h
  | some c => exact alookup_ainsert_other m k k' (c + 1) h

theorem getNextDisplay_cons (s : SurfaceState) (a : Nat) (rest : List Nat)
    (hav : s.available_surfaces = a :: rest) :
    getNextDisplay s =
      ({ s with
          available_surfaces := rest
          used_surfaces := abump s.used_surfaces a
          current_surface_id := some a },
        alookup s.surfaces a) := by
  unfold getNextDisplay
  rw [hav]

theorem getNextDisplay_nil (s : SurfaceState) (hav : s.available_surfaces = []) :
    getNextDisplay s = (s, none) := by
  unfold getNextDisplay
  rw [hav]

theorem releaseDisplay_absent (s : SurfaceState) (id : Nat)
    (h : alookup s.used_surfaces id = none) :
    releaseDisplay s id = s := by
  unfold releaseDisplay
  rw [h]

theorem releaseDisplay_decrement (s : SurfaceState) (id c : Nat)
    (hc : alookup s.used_surfaces id = some c) (h2 : 2 ≤ c) :
    releaseDisplay s id =
      { s with used_surfaces := ainsert s.used_surfaces id (c - 1) } := by
  unfold releaseDisplay
  rw [hc]
  have hne : ¬ (c - 1 = 0) := by omega
  simp [hne]

theorem releaseDisplay_last (s : SurfaceState) (id : Nat)
    (hc : alookup s.used_surfaces id = some 1) :
    releaseDisplay s id =
      { s with
          used_surfaces := aerase s.used_surfaces id
          available_surfaces := s.available_surfaces ++ [id] } := by
  unfold releaseDisplay
  rw [hc]
  rfl

/-! ## Pool partition invariant -/

/-- Invariant of the manager state: the available pool has no duplicates,
every pooled or counted id is a known display, stored counts are at least 1,
and a known id sits in the available pool exactly when it has no reference
count. -/
structure PoolInv (s : SurfaceState) : Prop where
  avail_nodup : s.available_surfaces.Nodup
  avail_known : ∀ id, id ∈ s.available_surfaces → (alookup s.surfaces id).isSome = true
  used_known : ∀ id c, alookup s.used_surfaces id = some c →
    (alookup s.surfaces id).isSome = true
  used_pos : ∀ id c, alookup s.used_surfaces id = some c → 1 ≤ c
  avail_iff : ∀ id, (alookup s.surfaces id).isSome = true →
    (id ∈ s.available_surfaces ↔ alookup s.used_surfaces id = none)

theorem poolInv_new : PoolInv SurfaceState.new := by
  constructor <;> simp [SurfaceState.new, alookup]

theorem poolInv_add {s : SurfaceState} (inv : PoolInv s) (id : Nat)
    (info : SurfaceInfo) (raw : RawSurfaceInfo)
    (hfresh : alookup s.surfaces id = none) :
    PoolInv (s.add_surface id info raw) := by
  have hnotin : id ∉ s.available_surfaces := by
    intro hmem
    have hs := inv.avail_known id hmem
    rw [hfresh] at hs
    simp at hs
  have husednone : alookup s.used_surfaces id = none := by
    cases h : alookup s.used_surfaces id with
    | none => rfl
    | some c =>
      have hs := inv.used_known id c h
      rw [hfresh] at hs
      simp at hs
  constructor
  · exact List.nodup_append.mpr ⟨inv.avail_nodup, List.nodup_singleton id,
      fun a ha hb => hnotin (by rwa [List.mem_singleton.mp hb] at ha)⟩
  · intro id' hmem
    by_cases he : id' = id
    · subst he
      show (alookup (ainsert s.surfaces id' info) id').isSome = true
      rw [alookup_ainsert_self]
      rfl
    · show (alookup (ainsert s.surfaces id info) id').isSome = true
      rw [alookup_ainsert_other _ _ _ _ he]
      rcases List.mem_append.mp hmem with h | h
      · exact inv.avail_known id' h
      · exact absurd (List.mem_singleton.mp h) he
  · intro id' c hl
    by_cases he : id' = id
    · subst he
      show (alookup (ainsert s.surfaces id' info) id').isSome = true
      rw [alookup_ainsert_self]
      rfl
    · show (alookup (ainsert s.surfaces id info) id').isSome = true
      rw [alookup_ainsert_other _ _ _ _ he]
      exact inv.used_known id' c hl
  · intro id' c hl
    exact inv.used_pos id' c hl
  · intro id' hk
    by_cases he : id' = id
    · subst he
      constructor
      · intro _
        exact husednone
      · intro _
        exact List.mem_append.mpr (Or.inr (List.mem_singleton.mpr rfl))
    · replace hk : (alookup (ainsert s.surfaces id info) id').isSome = true := hk
      rw [alookup_ainsert_other _ _ _ _ he] at hk
      have hiff := inv.avail_iff id' hk
      constructor
      · intro hmem
        rcases List.mem_append.mp hmem with h | h
        · exact hiff.mp h
        · exact absurd (List.mem_singleton.mp h) he
      · intro hnone
        exact List.mem_append.mpr (Or.inl (hiff.mpr hnone))

theorem poolInv_acquire {s : SurfaceState} (inv : PoolInv s) :
    PoolInv (getNextDisplay s).1 := by
  cases hav : s.available_surfaces with
  | nil =>
    rw [getNextDisplay_nil s hav]
    exact inv
  | cons a rest =>
    rw [getNextDisplay_cons s a rest hav]
    have hknown : (alookup s.surfaces a).isSome = true :=
      inv.avail_known a (by rw [hav]; exact List.mem_cons_self a rest)
    have hused : alookup s.used_surfaces a = none :=
      (inv.avail_iff a hknown).mp (by rw [hav]; exact List.mem_cons_self a rest)
    have hbump : abump s.used_surfaces a = ainsert s.used_surfaces a 1 := by
      unfold abump
      rw [hused]
    have hnodup : (a :: rest).Nodup := hav ▸ inv.avail_nodup
    have hanotin : a ∉ rest := (List.nodup_cons.mp hnodup).1
    constructor
    · exact (List.nodup_cons.mp hnodup).2
    · intro id hmem
      exact inv.avail_known id (by rw [hav]; exact List.mem_cons_of_mem a hmem)
    · intro id c hl
      replace hl : alookup (abump s.used_surfaces a) id = some c := hl
      rw [hbump] at hl
      by_cases he : id = a
      · subst he
        exact hknown
      · rw [alookup_ainsert_other _ _ _ _ he] at hl
        exact inv.used_known id c hl
    · intro id c hl
      replace hl : alookup (abump s.used_surfaces a) id = some c := hl
      rw [hbump] at hl
      by_cases he : id = a
      · subst he
        rw [alookup_ainsert_self] at hl
        injection hl with h
        omega
      · rw [alookup_ainsert_other _ _ _ _ he] at hl
        exact inv.used_pos id c hl
    · intro id hk
      show id ∈ rest ↔ alookup (abump s.used_surfaces a) id = none
      rw [hbump]
      by_cases he : id = a
      · subst he
        rw [alookup_ainsert_self]
        simp [hanotin]
      · rw [alookup_ainsert_other _ _ _ _ he]
        have hiff := inv.avail_iff id hk
        rw [hav] at hiff
        constructor
        · intro hmem
          exact hiff.mp (List.mem_cons_of_mem a hmem)
        · intro hnone
          rcases List.mem_cons.mp (hiff.mpr hnone) with h | h
          · exact absurd h he
          · exact h

theorem poolInv_release {s : SurfaceState} (inv : PoolInv s) (id : Nat) :
    PoolInv (releaseDisplay s id) := by
  cases hl : alookup s.used_surfaces id with
  | none =>
    rw [releaseDisplay_absent s id hl]
    exact inv
  | some c =>
    have hc1 : 1 ≤ c := inv.used_pos id c hl
    have hknown : (alookup s.surfaces id).isSome = true := inv.used_known id c hl
    have hnotin : id ∉ s.available_surfaces := by
      intro hmem
      have hnone := (inv.avail_iff id hknown).mp hmem
      rw [hl] at hnone
      cases hnone
    by_cases hone : c = 1
    · subst hone
      rw [releaseDisplay_last s id hl]
      constructor
      · exact List.nodup_append.mpr ⟨inv.avail_nodup, List.nodup_singleton id,
          fun a ha hb => hnotin (by rwa [List.mem_singleton.mp hb] at ha)⟩
      · intro id' hmem
        rcases List.mem_append.mp hmem with h | h
        · exact inv.avail_known id' h
        · rw [List.mem_singleton.mp h]
          exact hknown
      · intro id' c' hl'
        replace hl' : alookup (aerase s.used_surfaces id) id' = some c' := hl'
        by_cases he : id' = id
        · subst he
          rw [alookup_aerase_self] at hl'
          cases hl'
        · rw [alookup_aerase_other _ _ _ he] at hl'
          exact inv.used_known id' c' hl'
      · intro id' c' hl'
        replace hl' : alookup (aerase s.used_surfaces id) id' = some c' := hl'
        by_cases he : id' = id
        · subst he
          rw [alookup_aerase_self] at hl'
          cases hl'
        · rw [alookup_aerase_other _ _ _ he] at hl'
          exact inv.used_pos id' c' hl'
      · intro id' hk
        show id' ∈ s.available_surfaces ++ [id] ↔ alookup (aerase s.used_surfaces id) id' = none
        by_cases he : id' = id
        · subst he
          rw [alookup_aerase_self]
          simp
        · rw [alookup_aerase_other _ _ _ he]
          have hiff := inv.avail_iff id' hk
          constructor
          · intro hmem
            rcases List.mem_append.mp hmem with h | h
            · exact hiff.mp h
            · exact absurd (List.mem_singleton.mp h) he
          · intro hnone
            exact List.mem_append.mpr (Or.inl (hiff.mpr hnone))
    · have h2 : 2 ≤ c := by omega
      rw [releaseDisplay_decrement s id c hl h2]
      constructor
      · exact inv.avail_nodup
      · intro id' hmem
        exact inv.avail_known id' hmem
      · intro id' c' hl'
        replace hl' : alookup (ainsert s.used_surfaces id (c - 1)) id' = some c' := hl'
        by_cases he : id' = id
        · subst he
          exact hknown
        · rw [alookup_ainsert_other _ _ _ _ he] at hl'
          exact inv.used_known id' c' hl'
      · intro id' c' hl'
        replace hl' : alookup (ainsert s.used_surfaces id (c - 1)) id' = some c' := hl'
        by_cases he : id' = id
        · subst he
          rw [alookup_ainsert_self] at hl'
          injection hl' with h
          omega
        · rw [alookup_ainsert_other _ _ _ _ he] at hl'
          exact inv.used_pos id' c' hl'
      · intro id' hk
        show id' ∈ s.available_surfaces ↔ alookup (ainsert s.used_surfaces id (c - 1)) id' = none
        by_cases he : id' = id
        · subst he
          rw [alookup_ainsert_self]
          simp [hnotin]
        · rw [alookup_ainsert_other _ _ _ _ he]
          exact inv.avail_iff id' hk

theorem poolInv_reachable (s : SurfaceState) (h : ReachableFresh s) : PoolInv s := by
  induction h with
  | init => exact poolInv_new
  | add id info raw _hr hfresh ih => exact poolInv_add ih id info raw hfresh
  | acquire _hr ih => exact poolInv_acquire ih
  | release id _hr ih => exact poolInv_release ih id

/-! ## Claim theorems -/

/-- C1: the spec demands that an Acquire on an empty available pool either
suspends the caller or yields `NoDisplayAvailable` and never panics. The
code violates this: the `GetNextDisplay` handler replies `None` on an empty
pool and `WaylandOverlay::next_display` feeds that reply into
`ok_or_else(|| unreachable!())`, which panics. Here both displays of
`mgrTwo` are leased out, the pool is empty, and the modelled
`next_display` reaches the panic outcome. -/
theorem next_display_empty_pool_panics :
    (next_display (runOps mgrTwo [Op.acquire, Op.acquire])).2
      = NextDisplayOutcome.panicked := by decide

/-- C2: for any gesture configuration, device, starting state and finite
input sequence, the Router emits exactly one `RoutedEvent` per input event,
with the payload passed through untouched — suppression shows up only in the
tag. (Router modelled from the spec; its source file is absent from src/.) -/
theorem router_never_drops (cfg : GestureConfig) (source : Nat)
    (st : RouterState) (evs : List TabletEvent) :
    (routeEvents cfg source st evs).2.length = evs.length
    ∧ (routeEvents cfg source st evs).2.map RoutedEvent.payload = evs := by
  induction evs generalizing st with
  | nil => simp [routeEvents]
  | cons ev rest ih =>
    have h := ih (routerStep cfg st ev).1
    simp [routeEvents, h.1, h.2]

/-- C5: Acquire removes the head of the available pool (FIFO), bumps that
reference count of that display, and replies with its info; hence from a state
with two distinct available displays, two sequential Acquires return the two
distinct displays in pool order. -/
theorem acquire_fifo_distinct (s : SurfaceState) (a b : Nat) (rest : List Nat)
    (ia ib : SurfaceInfo)
    (hav : s.available_surfaces = a :: b :: rest)
    (hab : a ≠ b)
    (hia : alookup s.surfaces a = some ia)
    (hib : alookup s.surfaces b = some ib)
    (hida : ia.id = a) (hidb : ib.id = b) :
    (getNextDisplay s).2 = some ia
    ∧ (getNextDisplay s).1.available_surfaces = b :: rest
    ∧ alookup (getNextDisplay s).1.used_surfaces a
        = some ((alookup s.used_surfaces a).getD 0 + 1)
    ∧ (getNextDisplay (getNextDisplay s).1).2 = some ib
    ∧ ia.id ≠ ib.id := by
  rw [getNextDisplay_cons s a (b :: rest) hav]
  refine ⟨hia, rfl, alookup_abump_self _ _, ?_, ?_⟩
  · rw [getNextDisplay_cons _ b rest rfl]
    exact hib
  · rw [hida, hidb]
    exact hab

/-- C5 witness: in `mgrTwo` the pool is `[1, 2]`; the first Acquire returns
display 1, the second display 2. -/
theorem acquire_fifo_distinct_witness :
    (getNextDisplay mgrTwo).2 = some (mkInfo 1)
    ∧ (getNextDisplay (getNextDisplay mgrTwo).1).2 = some (mkInfo 2) :=
  ⟨(acquire_fifo_distinct mgrTwo 1 2 [] (mkInfo 1) (mkInfo 2) (by decide)
      (by decide) (by decide) (by decide) (by decide) (by decide)).1,
    (acquire_fifo_distinct mgrTwo 1 2 [] (mkInfo 1) (mkInfo 2) (by decide)
      (by decide) (by decide) (by decide) (by decide) (by decide)).2.2.2.1⟩

/-- C10: a `ReleaseDisplay` for an id with no entry in the used map is a
no-op: the whole manager state is returned unchanged, so no count is
modified, none underflows, and nothing is pushed onto the available pool. -/
theorem release_unknown_id_noop (s : SurfaceState) (id : Nat)
    (h : alookup s.used_surfaces id = none) :
    releaseDisplay s id = s :=
  releaseDisplay_absent s id h

/-- C10 witness: releasing the never-leased id 9 in `mgrTwo` changes
nothing. -/
theorem release_unknown_id_noop_witness :
    releaseDisplay mgrTwo 9 = mgrTwo :=
  release_unknown_id_noop mgrTwo 9 (by decide)

theorem iterRelease_partial (id : Nat) :
    ∀ (j c : Nat) (s : SurfaceState), alookup s.used_surfaces id = some c → j < c →
      (iterRelease s id j).available_surfaces = s.available_surfaces
      ∧ alookup (iterRelease s id j).used_surfaces id = some (c - j) := by
  intro j
  induction j with
  | zero =>
    intro c s hc _
    exact ⟨rfl, by simpa using hc⟩
  | succ j ih =>
    intro c s hc hlt
    have h2 : 2 ≤ c := by omega
    rw [iterRelease, releaseDisplay_decrement s id c hc h2]
    have hc' : alookup (ainsert s.used_surfaces id (c - 1)) id = some (c - 1) :=
      alookup_ainsert_self _ _ _
    have hres := ih (c - 1)
      { s with used_surfaces := ainsert s.used_surfaces id (c - 1) } hc' (by omega)
    refine ⟨hres.1, ?_⟩
    rw [hres.2]
    congr 1
    omega

theorem iterRelease_final (id : Nat) :
    ∀ (c : Nat) (s : SurfaceState), alookup s.used_surfaces id = some (c + 1) →
      (iterRelease s id (c + 1)).available_surfaces = s.available_surfaces ++ [id]
      ∧ alookup (iterRelease s id (c + 1)).used_surfaces id = none := by
  intro c
  induction c with
  | zero =>
    intro s hc
    rw [iterRelease, releaseDisplay_last s id hc]
    exact ⟨rfl, alookup_aerase_self _ _⟩
  | succ c ih =>
    intro s hc
    rw [iterRelease, releaseDisplay_decrement s id (c + 2) hc (by omega)]
    have hc' : alookup (ainsert s.used_surfaces id (c + 2 - 1)) id = some (c + 1) := by
      rw [show c + 2 - 1 = c + 1 from rfl]
      exact alookup_ainsert_self _ _ _
    exact ih _ hc'

/-- C4: if the reference count of a display stands at `n ≥ 1` and it is out of the
available pool, then the first `n - 1` Releases only decrement the count and
leave the pool untouched, and the `n`-th Release removes the count entry and
pushes the display back — so it re-enters the pool exactly once, at the
`n`-th Release, not once per Release. -/
theorem release_n_returns_once (s : SurfaceState) (id n : Nat)
    (hn : 1 ≤ n)
    (hc : alookup s.used_surfaces id = some n)
    (ha : id ∉ s.available_surfaces) :
    (∀ k, k < n →
      (iterRelease s id k).available_surfaces = s.available_surfaces
      ∧ alookup (iterRelease s id k).used_surfaces id = some (n - k))
    ∧ (iterRelease s id n).available_surfaces = s.available_surfaces ++ [id]
    ∧ alookup (iterRelease s id n).used_surfaces id = none
    ∧ (iterRelease s id n).available_surfaces.count id = 1 := by
  obtain ⟨m, rfl⟩ : ∃ m, n = m + 1 := ⟨n - 1, by omega⟩
  refine ⟨fun k hk => iterRelease_partial id k (m + 1) s hc hk, ?_, ?_, ?_⟩
  · exact (iterRelease_final id m s hc).1
  · exact (iterRelease_final id m s hc).2
  · rw [(iterRelease_final id m s hc).1, List.count_append]
    rw [List.count_eq_zero.mpr ha]
    simp

/-- C4 witness: display 7 with reference count 2 and out of the pool;
after one Release it is still out of the pool, after the second it is back,
exactly once. -/
theorem release_n_returns_once_witness :
    (iterRelease leasedTwice 7 2).available_surfaces
        = leasedTwice.available_surfaces ++ [7]
    ∧ alookup (iterRelease leasedTwice 7 2).used_surfaces 7 = none
    ∧ (iterRelease leasedTwice 7 2).available_surfaces.count 7 = 1 :=
  ⟨(release_n_returns_once leasedTwice 7 2 (by decide) (by decide) (by decide)).2.1,
    (release_n_returns_once leasedTwice 7 2 (by decide) (by decide) (by decide)).2.2.1,
    (release_n_returns_once leasedTwice 7 2 (by decide) (by decide) (by decide)).2.2.2⟩

/-- Run in which `add_surface` is called twice with the same id 5 and an
Acquire follows. -/
def dupAddRun : SurfaceState :=
  runOps SurfaceState.new
    [Op.add 5 (mkInfo 5) (mkRaw 5), Op.add 5 (mkInfo 5) (mkRaw 5), Op.acquire]

/-- C3 counterexample: the claim quantifies over any sequence of
add_surface/Acquire/Release operations, but after `add 5, add 5, acquire`
the known display 5 sits in the available pool while its reference count is
1 — the available-iff-count-zero partition fails, and 5 is in the pool
mid-count. (`add_surface` pushes unconditionally, so a repeated id
duplicates the pool entry.) -/
theorem pool_partition_cex :
    (alookup dupAddRun.surfaces 5).isSome = true
    ∧ 5 ∈ dupAddRun.available_surfaces
    ∧ alookup dupAddRun.used_surfaces 5 = some 1 := by decide

/-- C3 amended: restricted to runs in which every `add_surface` id is fresh
(as in `WaylandOverlay::new`, which adds each output id once), every
reachable state satisfies: a known display id is in the available pool iff
it has no entry in the used map, and an id enters the available pool only
through `add_surface` or through a Release that takes its count from 1 to 0
— never while the count stays positive. -/
theorem pool_partition_invariant (s : SurfaceState) (h : ReachableFresh s) :
    (∀ id, (alookup s.surfaces id).isSome = true →
      (id ∈ s.available_surfaces ↔ alookup s.used_surfaces id = none))
    ∧ (∀ op id, id ∉ s.available_surfaces →
        id ∈ (stepOp s op).available_surfaces →
        (∃ info raw, op = Op.add id info raw)
        ∨ (op = Op.release id ∧ alookup s.used_surfaces id = some 1)) := by
  have inv := poolInv_reachable s h
  refine ⟨inv.avail_iff, ?_⟩
  intro op id hnot hmem
  cases op with
  | add id' info raw =>
    have hmem' : id ∈ s.available_surfaces ++ [id'] := hmem
    rcases List.mem_append.mp hmem' with h' | h'
    · exact absurd h' hnot
    · refine Or.inl ⟨info, raw, ?_⟩
      rw [List.mem_singleton.mp h']
  | acquire =>
    exfalso
    cases hav : s.available_surfaces with
    | nil =>
      rw [show stepOp s Op.acquire = (getNextDisplay s).1 from rfl,
        getNextDisplay_nil s hav] at hmem
      exact hnot hmem
    | cons a rest =>
      rw [show stepOp s Op.acquire = (getNextDisplay s).1 from rfl,
        getNextDisplay_cons s a rest hav] at hmem
      replace hmem : id ∈ rest := hmem
      exact hnot (by rw [hav]; exact List.mem_cons_of_mem a hmem)
  | release id' =>
    cases hl : alookup s.used_surfaces id' with
    | none =>
      exfalso
      rw [show stepOp s (Op.release id') = releaseDisplay s id' from rfl,
        releaseDisplay_absent s id' hl] at hmem
      exact hnot hmem
    | some c =>
      have hc1 : 1 ≤ c := inv.used_pos id' c hl
      by_cases hone : c = 1
      · subst hone
        rw [show stepOp s (Op.release id') = releaseDisplay s id' from rfl,
          releaseDisplay_last s id' hl] at hmem
        replace hmem : id ∈ s.available_surfaces ++ [id'] := hmem
        rcases List.mem_append.mp hmem with h' | h'
        · exact absurd h' hnot
        · have he : id = id' := List.mem_singleton.mp h'
          refine Or.inr ⟨?_, ?_⟩
          · rw [he]
          · rw [he]
            exact hl
      · exfalso
        rw [show stepOp s (Op.release id') = releaseDisplay s id' from rfl,
          releaseDisplay_decrement s id' c hl (by omega)] at hmem
        exact hnot hmem

/-- C3 witness: in the reachable state `mgrOne` (one fresh add of id 1) the
partition holds for id 1: it is in the pool and has no count entry. -/
theorem pool_partition_invariant_witness :
    1 ∈ mgrOne.available_surfaces ↔ alookup mgrOne.used_surfaces 1 = none :=
  (pool_partition_invariant mgrOne
    (ReachableFresh.add 1 (mkInfo 1) (mkRaw 1) ReachableFresh.init rfl)).1 1 (by decide)

/-- C6: the spec forbids attaching a pixel buffer before the configure
acknowledgement, but the overlay client of src/overlay/backend_wayland
attaches and commits inside the `wl_shm` registry branch: after the event
trace `[Global wl_compositor, Global wl_shm]` — with no Configure event
delivered at all — the emitted request trace contains an `attachBuffer`
with no preceding `ackConfigure`. -/
theorem attach_before_ack_in_shm_branch :
    (runClient OverlayClientState.init
        [ClientEvent.globalCompositor, ClientEvent.globalShm]).2
      = [WlAction.createSurface, WlAction.setInputRegion, WlAction.createPool,
          WlAction.createBuffer, WlAction.attachBuffer, WlAction.commitSurface]
    ∧ attachesAfterAck
        (runClient OverlayClientState.init
          [ClientEvent.globalCompositor, ClientEvent.globalShm]).2 false
      = false := by decide

/-- State slice of the lease-manager event loop holding the raw surface of
display 1, whose layer-surface handle is `mkRaw 1 = ... layer_surface := 12`. -/
def eventLoopOne : WaylandEventStateSlice :=
  { surfaces := [(1, mkRaw 1)], running := true }

/-- C7: the `Closed` arm removes the surface only from the raw map of the
event loop; the shared manager state is returned untouched — display 1 stays in the
info map and the available pool, and a subsequent Acquire happily leases it
instead of failing with `SurfaceGone` (no such error exists in the code). -/
theorem closed_leaves_manager_pools :
    (closedEvent eventLoopOne mgrOne 12).1.surfaces = []
    ∧ (closedEvent eventLoopOne mgrOne 12).2 = mgrOne
    ∧ 1 ∈ (closedEvent eventLoopOne mgrOne 12).2.available_surfaces
    ∧ alookup (closedEvent eventLoopOne mgrOne 12).2.surfaces 1 = some (mkInfo 1)
    ∧ (next_display (closedEvent eventLoopOne mgrOne 12).2).2
        = NextDisplayOutcome.lease (mkInfo 1) := by decide

/-- Output that first reports a valid mode and then a 0x0 mode. -/
def modeDowngradeOutput : OutputInfo :=
  applyOutputEvent (applyOutputEvent OutputInfo.init (OutputEvent.mode 1920 1080))
    (OutputEvent.mode 0 0)

/-- C8 counterexample: `has_valid_size` latches on the first positive Mode
and is never cleared, and surface creation uses the most recent reported
size — so after Mode(1920,1080) followed by Mode(0,0) the display is still
given a surface, with size 0x0, although its width and height are not
strictly positive. -/
theorem zero_size_surface_created :
    modeDowngradeOutput.has_valid_size = true
    ∧ overlayCreationSize modeDowngradeOutput = some (0, 0) := by decide

theorem has_valid_size_foldl (evs : List OutputEvent) (i : OutputInfo) :
    ((evs.foldl applyOutputEvent i).has_valid_size = true)
    ↔ (i.has_valid_size = true
        ∨ ∃ w h, OutputEvent.mode w h ∈ evs ∧ 0 < w ∧ 0 < h) := by
  induction evs generalizing i with
  | nil => simp
  | cons ev rest ih =>
    rw [List.foldl_cons, ih]
    cases ev with
    | mode w h =>
      by_cases hpos : 0 < w ∧ 0 < h
      · have hb : (decide (w > 0) && decide (h > 0)) = true := by
          simp [hpos.1, hpos.2]
        constructor
        · intro _
          exact Or.inr ⟨w, h, List.mem_cons_self _ _, hpos.1, hpos.2⟩
        · intro _
          left
          simp [applyOutputEvent, hb]
      · have hb : (decide (w > 0) && decide (h > 0)) = false := by
          rcases Decidable.not_and_iff_or_not.mp hpos with h' | h'
          · simp [h']
          · simp [h']
        have happ : (applyOutputEvent i (OutputEvent.mode w h)).has_valid_size
            = i.has_valid_size := by
          simp [applyOutputEvent, hb]
        rw [happ]
        constructor
        · rintro (h' | ⟨w', h', hmem, hw', hh'⟩)
          · exact Or.inl h'
          · exact Or.inr ⟨w', h', List.mem_cons_of_mem _ hmem, hw', hh'⟩
        · rintro (h' | ⟨w', h', hmem, hw', hh'⟩)
          · exact Or.inl h'
          · rcases List.mem_cons.mp hmem with heq | hmem'
            · cases heq
              exact absurd ⟨hw', hh'⟩ hpos
            · exact Or.inr ⟨w', h', hmem', hw', hh'⟩
    | scale f =>
      simp only [applyOutputEvent]
      constructor
      · rintro (h' | ⟨w', h', hmem, hw', hh'⟩)
        · exact Or.inl h'
        · exact Or.inr ⟨w', h', List.mem_cons_of_mem _ hmem, hw', hh'⟩
      · rintro (h' | ⟨w', h', hmem, hw', hh'⟩)
        · exact Or.inl h'
        · rcases List.mem_cons.mp hmem with heq | hmem'
          · cases heq
          · exact Or.inr ⟨w', h', hmem', hw', hh'⟩
    | name n =>
      simp only [applyOutputEvent]
      constructor
      · rintro (h' | ⟨w', h', hmem, hw', hh'⟩)
        · exact Or.inl h'
        · exact Or.inr ⟨w', h', List.mem_cons_of_mem _ hmem, hw', hh'⟩
      · rintro (h' | ⟨w', h', hmem, hw', hh'⟩)
        · exact Or.inl h'
        · rcases List.mem_cons.mp hmem with heq | hmem'
          · cases heq
          · exact Or.inr ⟨w', h', hmem', hw', hh'⟩
    | other =>
      simp only [applyOutputEvent]
      constructor
      · rintro (h' | ⟨w', h', hmem, hw', hh'⟩)
        · exact Or.inl h'
        · exact Or.inr ⟨w', h', List.mem_cons_of_mem _ hmem, hw', hh'⟩
      · rintro (h' | ⟨w', h', hmem, hw', hh'⟩)
        · exact Or.inl h'
        · rcases List.mem_cons.mp hmem with heq | hmem'
          · cases heq
          · exact Or.inr ⟨w', h', hmem', hw', hh'⟩

/-- C8 amended: a display is excluded from overlay creation until the
backend reports strictly positive geometry, and it is given a surface
exactly when some Mode event with strictly positive width and height has
been received — the validity latch is never cleared, and the surface is
created with the most recently reported size (which the counterexample
shows can be 0x0 after a later zero Mode). -/
theorem creation_iff_positive_mode (evs : List OutputEvent) :
    (overlayCreationSize (evs.foldl applyOutputEvent OutputInfo.init)).isSome = true
    ↔ ∃ w h, OutputEvent.mode w h ∈ evs ∧ 0 < w ∧ 0 < h := by
  have hlatch := has_valid_size_foldl evs OutputInfo.init
  simp only [OutputInfo.init] at hlatch
  unfold overlayCreationSize
  by_cases hv : (evs.foldl applyOutputEvent OutputInfo.init).has_valid_size = true
  · rw [if_pos hv]
    simp only [Option.isSome_some]
    rcases hlatch.mp hv with h' | h'
    · cases h'
    · simpa using h'
  · rw [if_neg hv]
    simp only [Option.isSome_none]
    constructor
    · intro h'
      cases h'
    · intro h'
      exact absurd (hlatch.mpr (Or.inr h')) hv

/-- C9: the per-lease task replies to every `GetInfo` with the same
`DisplayInfo`, computed purely from the `SurfaceInfo` snapshot cloned at
acquisition (which Acquire read from the head of the pool): width, height
and scale are copied (width/height through the `as u32` cast, the identity
for in-range non-negative values) and the name defaults to "未知" when the
snapshot has none. The reply is a function of the snapshot alone, so later
backend output events cannot change it. -/
theorem get_info_snapshot_stable (s : SurfaceState) (surf : SurfaceInfo)
    (hacq : (getNextDisplay s).2 = some surf)
    (hw0 : 0 ≤ surf.width) (hw1 : surf.width < 4294967296)
    (hh0 : 0 ≤ surf.height) (hh1 : surf.height < 4294967296) :
    (∃ a rest, s.available_surfaces = a :: rest ∧ alookup s.surfaces a = some surf)
    ∧ (∀ (cmds : List DisplayCommand) (i j : Nat),
        cmds[i]? = some DisplayCommand.getInfo →
        cmds[j]? = some DisplayCommand.getInfo →
        (leaseTaskReplies surf cmds)[i]? = (leaseTaskReplies surf cmds)[j]?
        ∧ (leaseTaskReplies surf cmds)[i]? = some (some (displayInfoOfSnapshot surf)))
    ∧ (displayInfoOfSnapshot surf).width = surf.width.toNat
    ∧ (displayInfoOfSnapshot surf).height = surf.height.toNat
    ∧ (displayInfoOfSnapshot surf).scale_factor = surf.scale_factor
    ∧ (displayInfoOfSnapshot surf).name = surf.name.getD "未知" := by
  refine ⟨?_, ?_, ?_, ?_, rfl, rfl⟩
  · cases hav : s.available_surfaces with
    | nil =>
      rw [getNextDisplay_nil s hav] at hacq
      cases hacq
    | cons a rest =>
      rw [getNextDisplay_cons s a rest hav] at hacq
      exact ⟨a, rest, rfl, hacq⟩
  · intro cmds i j hi hj
    have hmap : ∀ (k : Nat), cmds[k]? = some DisplayCommand.getInfo →
        (leaseTaskReplies surf cmds)[k]? = some (some (displayInfoOfSnapshot surf)) := by
      intro k hk
      unfold leaseTaskReplies
      rw [List.getElem?_map, hk]
      rfl
    rw [hmap i hi, hmap j hj]
    exact ⟨rfl, rfl⟩
  · show i32AsU32 surf.width = surf.width.toNat
    unfold i32AsU32
    rw [Int.emod_eq_of_lt hw0 hw1]
  · show i32AsU32 surf.height = surf.height.toNat
    unfold i32AsU32
    rw [Int.emod_eq_of_lt hh0 hh1]

/-- C9 witness: acquiring from `mgrTwo` snapshots display 1; its info fields
are copied from the snapshot and the missing name becomes "未知". -/
theorem get_info_snapshot_stable_witness :
    (displayInfoOfSnapshot (mkInfo 1)).width = (mkInfo 1).width.toNat
    ∧ (displayInfoOfSnapshot (mkInfo 1)).name = ((mkInfo 1).name).getD "未知" :=
  ⟨(get_info_snapshot_stable mgrTwo (mkInfo 1) (by decide) (by decide) (by decide)
      (by decide) (by decide)).2.2.1,
    (get_info_snapshot_stable mgrTwo (mkInfo 1) (by decide) (by decide) (by decide)
      (by decide) (by decide)).2.2.2.2.2⟩

end Tabletd
